import Mathlib

/-!
Shallow embedding of the censored-demand reconstruction pipeline found in
`src/censored_demand/predict.py`: partitioning of day records into complete
and stockout days, training of one through-origin OLS model per count of
known periods, and per-day / batch prediction of total demand on stockout
days.  Numeric array entries are modelled as rationals, two-dimensional
arrays as lists of row lists.  The statsmodels `sm.OLS(Y, X).fit()` call
with no added constant is the through-origin least-squares estimator
`beta = (sum of x*y) / (sum of x^2)`, whose prediction at `x` is `beta * x`.
-/

namespace CensoredDemand

/-- A fitted single-variable regression model with no intercept term: only
the slope coefficient is carried. -/
structure OLSModel where
  beta : ℚ
deriving DecidableEq, Repr

/-- Prediction of a fitted no-intercept model at a point: `beta * x`. -/
def OLSModel.predict (m : OLSModel) (x : ℚ) : ℚ := m.beta * x

/-- `sm.OLS(Y, X).fit()` with no added constant (endogenous variable `Y`
first, matching the source call): through-origin ordinary least squares,
`beta = (sum of x*y) / (sum of x^2)`. -/
def olsFit (Y X : List ℚ) : OLSModel :=
  ⟨(List.zipWith (fun x y => x * y) X Y).sum / (X.map (fun x => x * x)).sum⟩

/-- `split_days_by_stockout`: `complete_days` is the rows of
`period_sales_daily` whose aligned `unsold_daily` entry is positive
(`unsold_daily > 0` mask), `stockout_days` the rows whose entry is zero
(`unsold_daily == 0` mask). -/
def split_days_by_stockout (period_sales_daily : List (List ℚ))
    (unsold_daily : List ℚ) : List (List ℚ) × List (List ℚ) :=
  (((List.zip period_sales_daily unsold_daily).filter
      (fun p => decide (0 < p.2))).map Prod.fst,
   ((List.zip period_sales_daily unsold_daily).filter
      (fun p => decide (p.2 = 0))).map Prod.fst)

/-- `create_models_by_known_periods`: for each `period` in `1..num_periods-1`
fit OLS with dependent variable the total of all periods of every complete
day and independent variable the sum of the first `period` periods of every
complete day, and store the result under key `period`.  `num_periods` is the
column count of `complete_days` (`complete_days.shape[1]`). -/
def create_models_by_known_periods (num_periods : ℕ)
    (complete_days : List (List ℚ)) : List (ℕ × OLSModel) :=
  (List.range' 1 (num_periods - 1)).map (fun period =>
    (period,
      olsFit (complete_days.map List.sum)
        (complete_days.map (fun row => (row.take period).sum))))

/-- Running cumulative sum continuing from an accumulator. -/
def cumsumAux (acc : ℚ) : List ℚ → List ℚ
  | [] => []
  | x :: xs => (acc + x) :: cumsumAux (acc + x) xs

/-- `np.cumsum` of a one-dimensional array. -/
def cumsum (l : List ℚ) : List ℚ := cumsumAux 0 l

/-- `np.where(cumsum_periods < days_sum, stockout_period_sales, 0)`:
the sales entries whose cumulative sum is strictly below the day total,
with `0` in every other position. -/
def known_periods (sales : List ℚ) : List ℚ :=
  List.zipWith (fun c s => if c < sales.sum then s else 0) (cumsum sales) sales

/-- `np.count_nonzero(known_periods)`: the number of known periods. -/
def num_known_periods (sales : List ℚ) : ℕ :=
  ((known_periods sales).filter (fun x => decide (x ≠ 0))).length

/-- `known_demand = np.sum(stockout_period_sales[0:num_known_periods])`. -/
def known_demand (sales : List ℚ) : ℚ :=
  (sales.take (num_known_periods sales)).sum

/-- Outcome of `predict_stockout_day_demand`: a numeric estimate, the
`np.NaN` marker returned when no period is known, or the `KeyError` that a
missing dictionary key would raise. -/
inductive PredictResult where
  | value (v : ℚ)
  | nan
  | keyError (k : ℕ)
deriving DecidableEq, Repr

/-- `predict_stockout_day_demand`: when `num_known_periods > 0`, look up the
model stored under that key and predict total demand from `known_demand`;
otherwise return `np.NaN`. -/
def predict_stockout_day_demand (stockout_period_sales : List ℚ)
    (period_models : List (ℕ × OLSModel)) : PredictResult :=
  if 0 < num_known_periods stockout_period_sales then
    match List.lookup (num_known_periods stockout_period_sales) period_models with
    | some m =>
        PredictResult.value (m.predict (known_demand stockout_period_sales))
    | none => PredictResult.keyError (num_known_periods stockout_period_sales)
  else PredictResult.nan

/-- `predict_stockout_daily_demand`: `np.apply_along_axis` of the per-day
predictor over the rows of `stockout_days`.  `np.apply_along_axis` probes
the first row to determine the output shape and raises `ValueError` when
the iteration dimension is zero, so a zero-row input yields no output
array (`none`); on a nonempty input it applies the per-day predictor to
every row. -/
def predict_stockout_daily_demand (stockout_days : List (List ℚ))
    (period_models : List (ℕ × OLSModel)) : Option (List PredictResult) :=
  match stockout_days with
  | [] => none
  | r :: rs =>
    some ((r :: rs).map (fun row => predict_stockout_day_demand row period_models))

/-!
General lemmas about the embedded operations, shared by the claim theorems.
-/

/-- Counting the nonzero entries of a masked `zipWith` array equals counting
the pairs that pass the mask predicate and carry a nonzero value. -/
theorem length_filter_zipWith_mask (p : ℚ → Prop) [DecidablePred p]
    (cs ss : List ℚ) :
    ((List.zipWith (fun c s => if p c then s else 0) cs ss).filter
        (fun x => decide (x ≠ 0))).length
      = ((List.zip cs ss).filter (fun q => decide (p q.1 ∧ q.2 ≠ 0))).length := by
  induction cs generalizing ss with
  | nil => simp
  | cons c cs ih =>
    cases ss with
    | nil => simp
    | cons s ss =>
      have ih' := ih ss
      rw [← List.countP_eq_length_filter, ← List.countP_eq_length_filter] at ih' ⊢
      rw [List.zipWith_cons_cons, List.zip_cons_cons, List.countP_cons,
        List.countP_cons, ih']
      congr 1
      by_cases hp : p c
      · by_cases hs : s = 0 <;> simp [hp, hs]
      · simp [hp]

/-- The masked array built from a running cumulative sum that starts at
`acc` and must finally reach the threshold `T` ends with a zero entry, so
its nonzero count stays below the array length. -/
theorem length_filter_mask_cumsumAux_le (x : ℚ) (xs : List ℚ) (acc T : ℚ)
    (hT : acc + (x :: xs).sum = T) :
    ((List.zipWith (fun c s => if c < T then s else 0)
        (cumsumAux acc (x :: xs)) (x :: xs)).filter
        (fun q => decide (q ≠ 0))).length ≤ xs.length := by
  induction xs generalizing acc x with
  | nil =>
    have hx : acc + x = T := by simpa using hT
    simp [cumsumAux, hx]
  | cons y ys ih =>
    have hT' : (acc + x) + (y :: ys).sum = T := by
      rw [← hT]; simp [List.sum_cons]; ring
    have h2 := ih y (acc + x) hT'
    rw [← List.countP_eq_length_filter] at h2 ⊢
    rw [show cumsumAux acc (x :: y :: ys)
          = (acc + x) :: cumsumAux (acc + x) (y :: ys) from rfl,
      List.zipWith_cons_cons, List.countP_cons]
    simp only [List.length_cons]
    split <;> split <;> omega

/-- The number of known periods of a nonempty record is at most its length
minus one: the final cumulative sum equals the day total, so the last mask
entry is always zero. -/
theorem num_known_periods_le (sales : List ℚ) (hne : sales ≠ []) :
    num_known_periods sales ≤ sales.length - 1 := by
  obtain ⟨x, xs, rfl⟩ := List.exists_cons_of_ne_nil hne
  have h := length_filter_mask_cumsumAux_le x xs 0 (x :: xs).sum (by ring)
  simpa [num_known_periods, known_periods, cumsum] using h

/-- Looking up `k` in the association list pairing each element of
`range' a n` with `f` of it returns `f k` whenever `k` lies in the range. -/
theorem lookup_map_range' {β : Type} (f : ℕ → β) (k : ℕ) :
    ∀ (n a : ℕ), a ≤ k → k < a + n →
      List.lookup k ((List.range' a n).map (fun j => (j, f j))) = some (f k) := by
  intro n
  induction n with
  | zero => intro a h1 h2; omega
  | succ n ih =>
    intro a h1 h2
    rw [List.range'_succ, List.map_cons]
    by_cases hk : k = a
    · subst hk
      simp [List.lookup]
    · have hb : (k == a) = false := by simp [hk]
      rw [List.lookup, hb]
      exact ih (a + 1) (by omega) (by omega)

/-- Cons-step equation of the day partitioner on row-aligned inputs. -/
theorem split_days_cons (a : List ℚ) (as : List (List ℚ)) (u : ℚ)
    (us : List ℚ) :
    split_days_by_stockout (a :: as) (u :: us)
      = (if 0 < u then a :: (split_days_by_stockout as us).1
           else (split_days_by_stockout as us).1,
         if u = 0 then a :: (split_days_by_stockout as us).2
           else (split_days_by_stockout as us).2) := by
  by_cases h1 : 0 < u <;> by_cases h2 : u = 0 <;>
    simp [split_days_by_stockout, h1, h2]

/-!
Claim theorems.
-/

/-- C1: at the stockout record [0, 5, 5] the code computes
`num_known_periods = 1`, although two periods (including the zero-sales
opening period) have cumulative sum strictly below the day total 10: the
`np.count_nonzero` step excludes zero-sales periods that satisfy the strict
inequality, contradicting the claimed count. -/
theorem num_known_zero_period_divergence :
    num_known_periods [0, 5, 5] = 1 ∧
      ((cumsum [0, 5, 5]).filter
          (fun c => decide (c < ([0, 5, 5] : List ℚ).sum))).length = 2 := by
  constructor
  · norm_num [num_known_periods, known_periods, cumsum, cumsumAux, List.filter]
  · norm_num [cumsum, cumsumAux, List.filter]

/-- C2: for a record with non-negative entries, `num_known_periods` is the
number of periods with strictly positive sales among those whose cumulative
sum is strictly below the day total, and `known_demand` sums exactly the
first `num_known_periods` entries of the record. -/
theorem num_known_counts_positive_prefix (sales : List ℚ)
    (h : ∀ s ∈ sales, 0 ≤ s) :
    num_known_periods sales
        = ((List.zip (cumsum sales) sales).filter
            (fun q => decide (q.1 < sales.sum ∧ 0 < q.2))).length ∧
      known_demand sales = (sales.take (num_known_periods sales)).sum := by
  refine ⟨?_, rfl⟩
  have h1 := length_filter_zipWith_mask (fun c => c < sales.sum)
    (cumsum sales) sales
  have h2 : num_known_periods sales
      = ((List.zip (cumsum sales) sales).filter
          (fun q => decide (q.1 < sales.sum ∧ q.2 ≠ 0))).length := by
    simpa [num_known_periods, known_periods] using h1
  rw [h2]
  congr 1
  apply List.filter_congr
  rintro ⟨c, s⟩ hq
  have hs : s ∈ sales := (List.of_mem_zip hq).2
  have h0 : (0 : ℚ) ≤ s := h s hs
  simp only [decide_eq_decide]
  constructor
  · rintro ⟨hlt, hne⟩
    exact ⟨hlt, lt_of_le_of_ne h0 (Ne.symm hne)⟩
  · rintro ⟨hlt, hpos⟩
    exact ⟨hlt, ne_of_gt hpos⟩

/-- C2 witness: the theorem instantiated at the record [0, 5, 5]. -/
theorem num_known_counts_positive_prefix_witness :
    num_known_periods [0, 5, 5]
        = ((List.zip (cumsum [0, 5, 5]) ([0, 5, 5] : List ℚ)).filter
            (fun q => decide (q.1 < ([0, 5, 5] : List ℚ).sum ∧ 0 < q.2))).length ∧
      known_demand [0, 5, 5]
        = (([0, 5, 5] : List ℚ).take (num_known_periods [0, 5, 5])).sum :=
  num_known_counts_positive_prefix [0, 5, 5]
    (by norm_num [List.forall_mem_cons])

/-- C3: whenever no period is known the predictor returns the explicit
`np.NaN` marker, not zero and not a numeric estimate. -/
theorem predict_nan_of_no_known (sales : List ℚ)
    (period_models : List (ℕ × OLSModel))
    (h : num_known_periods sales = 0) :
    predict_stockout_day_demand sales period_models = PredictResult.nan := by
  simp [predict_stockout_day_demand, h]

/-- C3 witness: the record [0, 0, 5] with P = 3 has no known period and the
predictor returns the undefined marker on it. -/
theorem predict_nan_of_no_known_witness :
    num_known_periods [0, 0, 5] = 0 ∧
      predict_stockout_day_demand [0, 0, 5] [] = PredictResult.nan :=
  ⟨by norm_num [num_known_periods, known_periods, cumsum, cumsumAux,
      List.filter],
    predict_nan_of_no_known [0, 0, 5] []
      (by norm_num [num_known_periods, known_periods, cumsum, cumsumAux,
        List.filter])⟩

/-- C4: a day whose inventory-remaining value is negative passes neither
partition test, and `split_days_by_stockout` silently drops that row from
both outputs instead of failing fast: the code contradicts both the claim
and its own docstring note that the two output sizes sum to the day count. -/
theorem split_days_drops_negative_unsold :
    split_days_by_stockout [[1, 2]] [-1] = ([], []) := by
  norm_num [split_days_by_stockout, List.filter]

/-- C5 counterexample: with the negative unsold value -2 the single input
row lands in neither output, so the partition sizes sum to 0, not 1, and
the claim fails as stated for that input. -/
theorem split_days_counts_fail_on_negative :
    (split_days_by_stockout [[3]] [-2]).1.length
        + (split_days_by_stockout [[3]] [-2]).2.length
      ≠ ([[3]] : List (List ℚ)).length := by
  norm_num [split_days_by_stockout, List.filter]

/-- C5 (amended): on row-aligned inputs whose unsold values are all
non-negative, the partitioner is a true partition: the output sizes sum to
the day count, every row keeps its total multiplicity across the two
outputs (none duplicated or lost), and each output is a sublist of the
input, so row order is preserved within each group. -/
theorem split_days_partition_of_nonneg (sales : List (List ℚ))
    (unsold : List ℚ) (hlen : sales.length = unsold.length)
    (hnn : ∀ u ∈ unsold, 0 ≤ u) :
    (split_days_by_stockout sales unsold).1.length
        + (split_days_by_stockout sales unsold).2.length = sales.length ∧
      (∀ r, (split_days_by_stockout sales unsold).1.count r
          + (split_days_by_stockout sales unsold).2.count r = sales.count r) ∧
      (split_days_by_stockout sales unsold).1.Sublist sales ∧
      (split_days_by_stockout sales unsold).2.Sublist sales := by
  induction sales generalizing unsold with
  | nil =>
    refine ⟨?_, fun r => ?_, ?_, ?_⟩ <;> simp [split_days_by_stockout]
  | cons a as ih =>
    cases unsold with
    | nil => simp at hlen
    | cons u us =>
      have hlen' : as.length = us.length := by simpa using hlen
      have hnn' : ∀ v ∈ us, 0 ≤ v := fun v hv =>
        hnn v (List.mem_cons_of_mem u hv)
      have h0 : (0 : ℚ) ≤ u := hnn u (List.mem_cons_self u us)
      obtain ⟨hl, hc, hs1, hs2⟩ := ih us hlen' hnn'
      rw [split_days_cons]
      rcases h0.lt_or_eq with hpos | heq
      · have hne : u ≠ 0 := ne_of_gt hpos
        rw [if_pos hpos, if_neg hne]
        dsimp only
        refine ⟨?_, fun r => ?_, List.Sublist.cons₂ a hs1,
          List.Sublist.cons a hs2⟩
        · simp only [List.length_cons]
          omega
        · rw [List.count_cons, List.count_cons]
          have := hc r
          omega
      · have hz : u = 0 := heq.symm
        have hnlt : ¬ 0 < u := by simp [hz]
        rw [if_neg hnlt, if_pos hz]
        dsimp only
        refine ⟨?_, fun r => ?_, List.Sublist.cons a hs1,
          List.Sublist.cons₂ a hs2⟩
        · simp only [List.length_cons]
          omega
        · rw [List.count_cons, List.count_cons]
          have := hc r
          omega

/-- C5 witness: the amended partition guarantee at a concrete two-day
input with one complete and one stockout day. -/
theorem split_days_partition_of_nonneg_witness :
    (split_days_by_stockout [[1], [2]] [1, 0]).1.length
        + (split_days_by_stockout [[1], [2]] [1, 0]).2.length
        = ([[1], [2]] : List (List ℚ)).length ∧
      (∀ r, (split_days_by_stockout [[1], [2]] [1, 0]).1.count r
          + (split_days_by_stockout [[1], [2]] [1, 0]).2.count r
          = ([[1], [2]] : List (List ℚ)).count r) ∧
      (split_days_by_stockout [[1], [2]] [1, 0]).1.Sublist [[1], [2]] ∧
      (split_days_by_stockout [[1], [2]] [1, 0]).2.Sublist [[1], [2]] :=
  split_days_partition_of_nonneg [[1], [2]] [1, 0] (by norm_num)
    (by norm_num [List.forall_mem_cons])

/-- C7: at the stockout record [10, 8, 0] (day total 18, cumulative sums
[10, 18, 18]) the predictor finds exactly one known period with known
demand 10 and returns the model stored under key 1 applied to 10. -/
theorem predict_known_case_ten_eight_zero (period_models : List (ℕ × OLSModel))
    (m : OLSModel) (h : List.lookup 1 period_models = some m) :
    num_known_periods [10, 8, 0] = 1 ∧ known_demand [10, 8, 0] = 10 ∧
      predict_stockout_day_demand [10, 8, 0] period_models
        = PredictResult.value (m.predict 10) := by
  have h1 : num_known_periods [10, 8, 0] = 1 := by
    norm_num [num_known_periods, known_periods, cumsum, cumsumAux, List.filter]
  have h2 : known_demand [10, 8, 0] = 10 := by
    norm_num [known_demand, h1]
  exact ⟨h1, h2, by simp [predict_stockout_day_demand, h1, h2, h]⟩

/-- C7 witness: the known case evaluated against a one-model table. -/
theorem predict_known_case_ten_eight_zero_witness :
    num_known_periods [10, 8, 0] = 1 ∧ known_demand [10, 8, 0] = 10 ∧
      predict_stockout_day_demand [10, 8, 0] [(1, OLSModel.mk 3)]
        = PredictResult.value ((OLSModel.mk 3).predict 10) :=
  predict_known_case_ten_eight_zero [(1, OLSModel.mk 3)] (OLSModel.mk 3)
    (by simp [List.lookup])

/-- C8 counterexample: on the reachable zero-row input
`np.apply_along_axis` raises `ValueError`, so the batch predictor produces
no output array at all instead of the empty one-entry-per-row output the
claim requires for every input. -/
theorem predict_daily_empty_counterexample :
    predict_stockout_daily_demand [] [] = none ∧
      predict_stockout_daily_demand [] [] ≠ some [] := by
  constructor <;> simp [predict_stockout_daily_demand]

/-- C8 (amended): on every nonempty `stockout_days` input the batch
predictor succeeds and applies the single-day predictor independently to
each row: the output has one entry per input row and the entry at every
index is exactly the per-day prediction of the input row at that index, so
order is preserved and undefined markers stay in place; the zero-row input
instead reproduces the `ValueError` of `np.apply_along_axis`. -/
theorem predict_daily_rowwise (stockout_days : List (List ℚ))
    (period_models : List (ℕ × OLSModel)) (hne : stockout_days ≠ []) :
    ∃ out, predict_stockout_daily_demand stockout_days period_models
        = some out ∧
      out.length = stockout_days.length ∧
      ∀ i : ℕ, out[i]?
        = (stockout_days[i]?).map
            (fun row => predict_stockout_day_demand row period_models) := by
  obtain ⟨r, rs, rfl⟩ := List.exists_cons_of_ne_nil hne
  refine ⟨_, rfl, ?_, ?_⟩
  · simp
  · intro i
    rw [List.getElem?_map]

/-- C8 witness: the amended row-wise guarantee at a one-row input whose
single prediction is the undefined marker, kept in place. -/
theorem predict_daily_rowwise_witness :
    ∃ out, predict_stockout_daily_demand [[0, 0, 5]] [] = some out ∧
      out.length = ([[0, 0, 5]] : List (List ℚ)).length ∧
      ∀ i : ℕ, out[i]?
        = ((([[0, 0, 5]] : List (List ℚ)))[i]?).map
            (fun row => predict_stockout_day_demand row []) :=
  predict_daily_rowwise [[0, 0, 5]] [] (by simp)

/-- C9: for a P-period record (P ≥ 2) with non-negative entries and the
table trained on P-column complete days, a positive known-period count is
at most P-1, the table lookup always finds a model, and the predictor
returns a numeric value: the lookup-failure branch is unreachable. -/
theorem predict_lookup_total (sales : List ℚ)
    (complete_days : List (List ℚ)) (P : ℕ) (hP : 2 ≤ P)
    (hlen : sales.length = P) (hnn : ∀ s ∈ sales, 0 ≤ s)
    (hpos : 1 ≤ num_known_periods sales) :
    num_known_periods sales ≤ P - 1 ∧
      ∃ m, List.lookup (num_known_periods sales)
            (create_models_by_known_periods P complete_days) = some m ∧
        predict_stockout_day_demand sales
            (create_models_by_known_periods P complete_days)
          = PredictResult.value (m.predict (known_demand sales)) := by
  have hne : sales ≠ [] := by
    intro hnil
    rw [hnil] at hlen
    simp at hlen
    omega
  have hb := num_known_periods_le sales hne
  rw [hlen] at hb
  refine ⟨hb, ?_⟩
  have hlk : List.lookup (num_known_periods sales)
      (create_models_by_known_periods P complete_days)
      = some (olsFit (complete_days.map List.sum)
          (complete_days.map
            (fun row => (row.take (num_known_periods sales)).sum))) := by
    unfold create_models_by_known_periods
    exact lookup_map_range' _ (num_known_periods sales) (P - 1) 1 hpos
      (by omega)
  have hpos' : 0 < num_known_periods sales := hpos
  exact ⟨_, hlk, by simp [predict_stockout_day_demand, hlk, hpos']⟩

/-- C9 witness: the record [7, 7, 0] with P = 3 against a table trained on
one complete day. -/
theorem predict_lookup_total_witness :
    num_known_periods [7, 7, 0] ≤ 3 - 1 ∧
      ∃ m, List.lookup (num_known_periods [7, 7, 0])
            (create_models_by_known_periods 3 [[2, 2, 2]]) = some m ∧
        predict_stockout_day_demand [7, 7, 0]
            (create_models_by_known_periods 3 [[2, 2, 2]])
          = PredictResult.value (m.predict (known_demand [7, 7, 0])) :=
  predict_lookup_total [7, 7, 0] [[2, 2, 2]] 3 (by norm_num) (by norm_num)
    (by norm_num [List.forall_mem_cons])
    (by norm_num [num_known_periods, known_periods, cumsum, cumsumAux,
      List.filter])

/-- C10: every row placed in `complete_days` is paired in the input with a
strictly positive unsold value and every row placed in `stockout_days` is
paired with an unsold value equal to zero. -/
theorem split_days_sides_correct (sales : List (List ℚ)) (unsold : List ℚ) :
    (∀ r ∈ (split_days_by_stockout sales unsold).1,
        ∃ u, (r, u) ∈ List.zip sales unsold ∧ 0 < u) ∧
      (∀ r ∈ (split_days_by_stockout sales unsold).2,
        ∃ u, (r, u) ∈ List.zip sales unsold ∧ u = 0) := by
  constructor <;>
  · intro r hr
    simp only [split_days_by_stockout, List.mem_map, List.mem_filter] at hr
    obtain ⟨⟨a, u⟩, ⟨hmem, hcond⟩, rfl⟩ := hr
    exact ⟨u, hmem, by simpa using hcond⟩

/-- C10 witness: the complete-side guarantee at a one-day input with
positive leftover inventory. -/
theorem split_days_sides_correct_witness :
    ∃ u, (([2] : List ℚ), u) ∈ List.zip [[2]] [(4 : ℚ)] ∧ 0 < u :=
  (split_days_sides_correct [[2]] [4]).1 [2]
    (by norm_num [split_days_by_stockout, List.filter])

end CensoredDemand
